import Mathlib

/-!
Shallow embedding of the scraping-and-ingestion engine of the
`Assignment1` repository (a Sydney events scraper):

* `src/backend/app/models.py` — the `Event` ORM model;
* `src/backend/app/scrapers/base.py` — `BaseScraper`: robots.txt handling,
  `check_duplicate`, `save_event`, `mark_expired_events`, `run`;
* `src/backend/app/scrapers/eventbrite.py` and
  `src/backend/app/scrapers/timeout.py` — the two per-source extractors,
  their date parsing, and their bounded page loops;
* `src/backend/app/scheduler.py` — `run_all_scrapers`.

Timestamps are modelled as `Int` seconds (Python `datetime` values are
totally ordered; `timedelta(days=1)` is 86400 seconds).  The database is a
list of `Event` records; SQLAlchemy's `.first()` on the `ticket_url` filter
is `List.find?`, and the bulk `update` of `mark_expired_events` is a `map`
over the rows.
-/

/-- Python `str.startswith(p)`: `p.data` is a list-prefix of `s.data`. -/
def pyStartsWith (s p : String) : Bool :=
  p.data.isPrefixOf s.data

/-- Python `str.capitalize()`: first character upper-cased, the rest
lower-cased. -/
def pyCapitalize (s : String) : String :=
  match s.data with
  | [] => ""
  | c :: cs => ⟨c.toUpper :: cs.map Char.toLower⟩

/-- Python `s[:n]` on a string (slice of the first `n` code points). -/
def pySlice (s : String) (n : Nat) : String :=
  ⟨s.data.take n⟩

/-- The scraped-event dictionary built by `_extract_event_data` and passed to
`save_event` (`event_data` in the source).  `source` is `Option`al because
the extractors do not put a `source` key in the dict; `BaseScraper.run`
stamps it before saving.  `description` and `image_url` hold Python `None`
as `none`. -/
structure Candidate where
  title : String
  ticket_url : String
  date_time : Int
  location : String
  description : Option String
  image_url : Option String
  source : Option String
deriving DecidableEq, Repr

/-- The `Event` row of `src/backend/app/models.py`: `ticket_url` is the
unique key, `expires_at` is nullable, `created_at` / `updated_at` default to
`now` on insert, `click_count` defaults to 0. -/
structure Event where
  id : Nat
  title : String
  date_time : Int
  location : String
  description : Option String
  ticket_url : String
  image_url : Option String
  source : String
  created_at : Int
  updated_at : Int
  expires_at : Option Int
  click_count : Nat
deriving DecidableEq, Repr

/-- `BaseScraper.check_duplicate`: first stored row whose `ticket_url`
matches. -/
def checkDuplicate (db : List Event) (url : String) : Option Event :=
  db.find? (fun e => e.ticket_url == url)

/-- The update branch of `save_event`: every key of the `event_data` dict
except `ticket_url` is `setattr`ed onto the existing row (`source` only when
the dict has that key), then `updated_at` is set to the current time.
`id`, `created_at`, `expires_at` and `click_count` are not dict keys, so
they are untouched. -/
def applyCandidate (now : Int) (c : Candidate) (e : Event) : Event :=
  { e with
    title := c.title
    date_time := c.date_time
    location := c.location
    description := c.description
    image_url := c.image_url
    source := c.source.getD e.source
    updated_at := now }

/-- The insert branch of `save_event`: `Event(**event_data)` with the column
defaults of `models.py` (`created_at = updated_at = now`, `expires_at`
null, `click_count` 0).  `run` always stamps `source` before saving; a
missing `source` key is mapped to `""` (the NOT NULL column would reject
it). -/
def newEvent (now : Int) (id : Nat) (c : Candidate) : Event :=
  { id := id
    title := c.title
    date_time := c.date_time
    location := c.location
    description := c.description
    ticket_url := c.ticket_url
    image_url := c.image_url
    source := c.source.getD ""
    created_at := now
    updated_at := now
    expires_at := none
    click_count := 0 }

/-- Update the first element satisfying `p` in place (the ORM mutates the
single row returned by `.first()`). -/
def updateFirst (p : α → Bool) (f : α → α) : List α → List α
  | [] => []
  | x :: xs => if p x then f x :: xs else x :: updateFirst p f xs

/-- `BaseScraper.save_event`: if a row with the candidate's `ticket_url`
exists, overwrite its dict-supplied fields (except `ticket_url`) and bump
`updated_at`; otherwise insert a fresh row. -/
def saveEvent (now : Int) (id : Nat) (db : List Event) (c : Candidate) :
    List Event :=
  match checkDuplicate db c.ticket_url with
  | some _ =>
      updateFirst (fun e => e.ticket_url == c.ticket_url)
        (applyCandidate now c) db
  | none => db ++ [newEvent now id c]

/-- The per-row effect of the bulk `update` in `mark_expired_events`: rows
of this source whose `date_time` is before `now - 1 day` and whose
`expires_at` is null get `expires_at := now`; every other row is
unchanged. -/
def expireRecord (now : Int) (src : String) (e : Event) : Event :=
  if e.source == src && decide (e.date_time < now - 86400)
      && e.expires_at.isNone then
    { e with expires_at := some now }
  else e

/-- `BaseScraper.mark_expired_events`: the filtered bulk update applied to
the whole table. -/
def markExpired (now : Int) (src : String) (db : List Event) : List Event :=
  db.map (expireRecord now src)

example :
    saveEvent 5 1 [] ⟨"A", "u", 0, "L", none, none, some "eventbrite"⟩ =
      [⟨1, "A", 0, "L", none, "u", none, "eventbrite", 5, 5, none, 0⟩] := by
  decide

example :
    markExpired 200000 "eventbrite"
        [⟨1, "A", 0, "L", none, "u", none, "eventbrite", 5, 5, none, 0⟩] =
      [⟨1, "A", 0, "L", none, "u", none, "eventbrite", 5, 5, some 200000, 0⟩] := by
  decide

/-!
### Robots policy

`BaseScraper._check_robots_txt` builds a CPython
`urllib.robotparser.RobotFileParser` and calls `read()`; on any exception
it replaces it with a freshly constructed one.  The model below follows
CPython's `Lib/urllib/robotparser.py`: a fresh instance has
`disallow_all = allow_all = False` and `last_checked = 0`, and `can_fetch`
answers `False` whenever `last_checked` is unset, before any rule is
consulted.  The verdict of the parsed rules (only reachable after a
successful `read`) is abstracted as a function field.
-/

/-- State of a CPython `urllib.robotparser.RobotFileParser`, restricted to
what `can_fetch` inspects before consulting parsed entries.  `last_checked`
is `true` exactly when the Python attribute is non-zero (a read/parse has
completed).  `ruleVerdict` abstracts the entry lookup performed once
`last_checked` is set. -/
structure RobotsState where
  disallow_all : Bool
  allow_all : Bool
  last_checked : Bool
  ruleVerdict : String → String → Bool

/-- CPython `RobotFileParser.can_fetch`: deny if `disallow_all`, allow if
`allow_all`, deny while the file has not been read (`last_checked` unset),
else consult the parsed rules. -/
def RobotsState.can_fetch (p : RobotsState) (ua url : String) : Bool :=
  if p.disallow_all then false
  else if p.allow_all then true
  else if !p.last_checked then false
  else p.ruleVerdict ua url

/-- A freshly constructed `RobotFileParser()`: nothing read yet, no rules. -/
def freshRobots : RobotsState :=
  { disallow_all := false
    allow_all := false
    last_checked := false
    ruleVerdict := fun _ _ => true }

/-- `BaseScraper._check_robots_txt`: the `try` block's outcome is passed in
as an `Except` — `ok p` when `set_url`/`read` completed leaving parser state
`p`, `error` when anything raised; the `except` branch assigns a fresh
parser. -/
def checkRobotsTxt (readResult : Except Unit RobotsState) : RobotsState :=
  match readResult with
  | Except.ok p => p
  | Except.error _ => freshRobots

/-- `BaseScraper.can_fetch`: `True` when `self.robot_parser` is falsy;
otherwise query it inside a `try`, answering `True` if the query itself
raises (`queryRaises`). -/
def scraperCanFetch (rp : Option RobotsState) (queryRaises : Bool)
    (ua url : String) : Bool :=
  match rp with
  | none => true
  | some p => if queryRaises then true else p.can_fetch ua url

/-!
### Date parsing

`_parse_date` tries `datetime.strptime` on a prefix of the text against an
ordered list of formats and falls back to `utcnow() + timedelta(days=7)`.
The `strptime` model follows CPython `_strptime`: each directive is the
regular expression CPython compiles for it (`%Y` exactly four digits;
`%m`/`%d` one or two digits in range, two-digit alternatives first; month
and weekday names matched case-insensitively; whitespace in the format
matches a run of whitespace), the whole string must be consumed, and the
resulting calendar date must be constructible (`datetime` raises on
day-out-of-range, which the scrapers' bare `except` turns into trying the
next format).
-/

/-- Candidate `(value, rest)` splits for the `%m`/`%d` directives: CPython's
alternation tries valid two-digit matches before a single digit `1-9`. -/
def numSplits (hi : Nat) : List Char → List (Nat × List Char)
  | c1 :: c2 :: rest =>
      let one : List (Nat × List Char) :=
        if c1.isDigit && 1 ≤ c1.toNat - 48 then [(c1.toNat - 48, c2 :: rest)]
        else []
      if c1.isDigit && c2.isDigit then
        let v := (c1.toNat - 48) * 10 + (c2.toNat - 48)
        if 1 ≤ v && v ≤ hi then (v, rest) :: one else one
      else one
  | [c1] =>
      if c1.isDigit && 1 ≤ c1.toNat - 48 then [(c1.toNat - 48, [])] else []
  | [] => []

/-- Exactly four digits (the `%Y` directive). -/
def parse4Digits : List Char → Option (Nat × List Char)
  | c1 :: c2 :: c3 :: c4 :: rest =>
      if c1.isDigit && c2.isDigit && c3.isDigit && c4.isDigit then
        some ((((c1.toNat - 48) * 10 + (c2.toNat - 48)) * 10 +
          (c3.toNat - 48)) * 10 + (c4.toNat - 48), rest)
      else none
  | _ => none

/-- Case-insensitive literal name match, returning the rest of the input. -/
def stripNameCI (name : String) (input : List Char) : Option (List Char) :=
  if (input.take name.data.length).map Char.toLower == name.data then
    some (input.drop name.data.length)
  else none

/-- Lowercase month abbreviations, as in CPython's C-locale `%b`. -/
def monthAbbrevs : List String :=
  ["jan", "feb", "mar", "apr", "may", "jun",
   "jul", "aug", "sep", "oct", "nov", "dec"]

/-- Lowercase full month names (`%B`). -/
def monthNames : List String :=
  ["january", "february", "march", "april", "may", "june", "july",
   "august", "september", "october", "november", "december"]

/-- Lowercase weekday abbreviations (`%a`). -/
def dayAbbrevs : List String :=
  ["mon", "tue", "wed", "thu", "fri", "sat", "sun"]

/-- Candidate `(monthNumber, rest)` splits for a month-name directive. -/
def monthSplits (names : List String) (input : List Char) :
    List (Nat × List Char) :=
  names.enum.filterMap fun p =>
    (stripNameCI p.2 input).map (fun rest => (p.1 + 1, rest))

/-- Candidate rests after a weekday-name directive (the parsed weekday does
not influence the resulting date when the format fixes year, month and
day). -/
def daySplits (input : List Char) : List (List Char) :=
  dayAbbrevs.filterMap fun nm => stripNameCI nm input

/-- Candidate rests after consuming a non-empty whitespace run, longest
first (a whitespace character in a `strptime` format matches one or more
whitespace characters). -/
def wsSplits : List Char → List (List Char)
  | [] => []
  | c :: rest => if c.isWhitespace then wsSplits rest ++ [rest] else []

/-- Directive-by-directive `strptime` matcher.  The accumulator carries
`(year, month, day)`, initialised to CPython's defaults `(1900, 1, 1)`.
Alternation backtracks through `List.findSome?`, as the compiled regular
expression does; the empty format succeeds only on exhausted input
("unconverted data remains" otherwise).  The `fuel` argument makes the
recursion structural — every step consumes at least one format character,
so `fmt.length` fuel (supplied by `matchFmt`) never runs out. -/
def matchFmtF : Nat → List Char → List Char → Nat × Nat × Nat →
    Option (Nat × Nat × Nat)
  | _, [], [], acc => some acc
  | _, [], _ :: _, _ => none
  | 0, _ :: _, _, _ => none
  | fuel + 1, '%' :: 'Y' :: fmt, input, acc =>
      match parse4Digits input with
      | some (v, rest) => matchFmtF fuel fmt rest (v, acc.2.1, acc.2.2)
      | none => none
  | fuel + 1, '%' :: 'm' :: fmt, input, acc =>
      (numSplits 12 input).findSome? fun p =>
        matchFmtF fuel fmt p.2 (acc.1, p.1, acc.2.2)
  | fuel + 1, '%' :: 'd' :: fmt, input, acc =>
      (numSplits 31 input).findSome? fun p =>
        matchFmtF fuel fmt p.2 (acc.1, acc.2.1, p.1)
  | fuel + 1, '%' :: 'b' :: fmt, input, acc =>
      (monthSplits monthAbbrevs input).findSome? fun p =>
        matchFmtF fuel fmt p.2 (acc.1, p.1, acc.2.2)
  | fuel + 1, '%' :: 'B' :: fmt, input, acc =>
      (monthSplits monthNames input).findSome? fun p =>
        matchFmtF fuel fmt p.2 (acc.1, p.1, acc.2.2)
  | fuel + 1, '%' :: 'a' :: fmt, input, acc =>
      (daySplits input).findSome? fun rest => matchFmtF fuel fmt rest acc
  | fuel + 1, ' ' :: fmt, input, acc =>
      (wsSplits input).findSome? fun rest => matchFmtF fuel fmt rest acc
  | fuel + 1, c :: fmt, c2 :: input, acc =>
      if c == c2 then matchFmtF fuel fmt input acc else none
  | _ + 1, _ :: _, [], _ => none

/-- The matcher at its canonical fuel. -/
def matchFmt (fmt input : List Char) (acc : Nat × Nat × Nat) :
    Option (Nat × Nat × Nat) :=
  matchFmtF fmt.length fmt input acc

/-- Gregorian leap year (CPython `datetime` validation). -/
def isLeapYear (y : Nat) : Bool :=
  (y % 4 == 0 && y % 100 != 0) || y % 400 == 0

/-- Days in a month, for `datetime`'s day-of-month validation. -/
def daysInMonth (y m : Nat) : Nat :=
  if m == 2 then (if isLeapYear y then 29 else 28)
  else if m == 4 || m == 6 || m == 9 || m == 11 then 30
  else 31

/-- `datetime(year, month, day)` constructibility: `strptime` raises (and
the scrapers' bare `except` moves to the next format) when the matched day
is out of range for the matched month. -/
def validDate (ymd : Nat × Nat × Nat) : Bool :=
  1 ≤ ymd.2.1 && ymd.2.1 ≤ 12 && 1 ≤ ymd.2.2 && ymd.2.2 ≤ daysInMonth ymd.1 ymd.2.1

/-- `datetime.strptime(s, fmt)` restricted to the directives the scrapers
use, returning the `(year, month, day)` of the parsed `datetime` (all the
scrapers' formats fix exactly these fields; times default to midnight). -/
def strptime (s fmt : String) : Option (Nat × Nat × Nat) :=
  match matchFmt fmt.data s.data (1900, 1, 1) with
  | some ymd => if validDate ymd then some ymd else none
  | none => none

/-- Days since 1970-01-01 of a civil date (proleptic Gregorian); standard
era-based computation, so midnight timestamps of parsed dates compare the
way `datetime` values do. -/
def daysFromCivil (y m d : Int) : Int :=
  let y2 := if m ≤ 2 then y - 1 else y
  let era := (if 0 ≤ y2 then y2 else y2 - 399) / 400
  let yoe := y2 - era * 400
  let doy := (153 * (if 2 < m then m - 3 else m + 9) + 2) / 5 + d - 1
  let doe := yoe * 365 + yoe / 4 - yoe / 100 + doy
  era * 146097 + doe - 719468

/-- Seconds-since-epoch timestamp of a parsed date (midnight). -/
def dateToTimestamp (ymd : Nat × Nat × Nat) : Int :=
  86400 * daysFromCivil ymd.1 ymd.2.1 ymd.2.2

/-- The format list of `EventbriteScraper._parse_date`. -/
def ebDateFormats : List String :=
  ["%Y-%m-%d", "%d %b %Y", "%d/%m/%Y", "%B %d, %Y"]

/-- The format list of `TimeOutScraper._parse_date`. -/
def timeoutDateFormats : List String :=
  ["%Y-%m-%d", "%d %b %Y", "%d/%m/%Y", "%B %d, %Y", "%a %d %b %Y"]

/-- The `for fmt in [...]` loop: first format that parses wins. -/
def tryFormats (fmts : List String) (s : String) : Option (Nat × Nat × Nat) :=
  fmts.findSome? fun f => strptime s f

/-- `EventbriteScraper._parse_date`: try the formats on `date_str[:20]`,
else default to `utcnow() + timedelta(days=7)`. -/
def ebParseDate (now : Int) (s : String) : Int :=
  match tryFormats ebDateFormats (pySlice s 20) with
  | some ymd => dateToTimestamp ymd
  | none => now + 7 * 86400

/-- `TimeOutScraper._parse_date`: try the formats on `date_str[:30]`,
else default to `utcnow() + timedelta(days=7)`. -/
def timeoutParseDate (now : Int) (s : String) : Int :=
  match tryFormats timeoutDateFormats (pySlice s 30) with
  | some ymd => dateToTimestamp ymd
  | none => now + 7 * 86400

example : strptime "2024-03-05" "%Y-%m-%d" = some (2024, 3, 5) := by decide
example : strptime "5 Mar 2024" "%d %b %Y" = some (2024, 3, 5) := by decide
example : strptime "March 5, 2024" "%B %d, %Y" = some (2024, 3, 5) := by decide
example : strptime "Tue 5 Mar 2024" "%a %d %b %Y" = some (2024, 3, 5) := by
  decide
example : strptime "2024-02-31" "%Y-%m-%d" = none := by decide
example : strptime "TBA" "%Y-%m-%d" = none := by decide
example : daysFromCivil 1970 1 1 = 0 := by decide
example : daysFromCivil 1970 1 2 = 1 := by decide
example : ebParseDate 1000 "Tomorrow at 7pm" = 1000 + 604800 := by decide

/-!
### Extraction

`_extract_event_data` operates on a BeautifulSoup card element through a
fixed set of selector chains.  The card is modelled by the outcome of each
chain: `titleText` is the first match of the `h2` / `h3` / anchor-with-
title-class chain, `anchorHref` the `href` of the first `<a href=...>`
(with `anchorText` its text), `dateText` the text of the first `<time>` /
date-class element, and so on; `imgSrc` is the first usable of the image
`src` / lazy-load attributes when an `<img>` exists.  The claims under
verification are about what the extractor does *given* these selector
outcomes.
-/

/-- Observable selector outcomes of one event card. -/
structure Card where
  titleText : Option String
  anchorHref : Option String
  anchorText : String
  dateText : Option String
  locationText : Option String
  descText : Option String
  imgSrc : Option String
deriving DecidableEq, Repr

/-- Base URL of `EventbriteScraper`. -/
def ebBaseUrl : String := "https://www.eventbrite.com.au"

/-- Base URL of `TimeOutScraper`. -/
def timeoutBaseUrl : String := "https://www.timeout.com"

/-- Title extraction: first selector-chain match, else the first anchor's
text, else `"Untitled Event"`. -/
def extractTitle (card : Card) : String :=
  match card.titleText with
  | some t => t
  | none =>
      match card.anchorHref with
      | some _ => card.anchorText
      | none => "Untitled Event"

/-- Ticket-URL resolution: a leading `/` is prefixed with the base URL, a
leading `http` passes through, anything else gets `base + "/" +` href. -/
def resolveHref (base href : String) : String :=
  if pyStartsWith href "/" then base ++ href
  else if pyStartsWith href "http" then href
  else base ++ "/" ++ href

/-- Image resolution: `/`-relative sources are prefixed with the base URL,
absolute ones pass through, anything else (and a missing source) becomes
`None`. -/
def resolveImage (base : String) (src : Option String) : Option String :=
  match src with
  | none => none
  | some s =>
      if pyStartsWith s "/" then some (base ++ s)
      else if pyStartsWith s "http" then some s
      else none

/-- `EventbriteScraper._extract_event_data`: `None` when the card has no
anchor with an `href`; otherwise a candidate dict with the date defaulting
to `utcnow()` when no date element is found and to `_parse_date` of its
text otherwise. -/
def ebExtract (city : String) (now : Int) (card : Card) : Option Candidate :=
  match card.anchorHref with
  | none => none
  | some href =>
      some
        { title := extractTitle card
          ticket_url := resolveHref ebBaseUrl href
          date_time :=
            match card.dateText with
            | some s => ebParseDate now s
            | none => now
          location := card.locationText.getD (pyCapitalize city ++ ", Australia")
          description := card.descText.map (fun d => pySlice d 500)
          image_url := resolveImage ebBaseUrl card.imgSrc
          source := none }

/-- `TimeOutScraper._extract_event_data`: same shape with the TimeOut base
URL and format list. -/
def timeoutExtract (city : String) (now : Int) (card : Card) :
    Option Candidate :=
  match card.anchorHref with
  | none => none
  | some href =>
      some
        { title := extractTitle card
          ticket_url := resolveHref timeoutBaseUrl href
          date_time :=
            match card.dateText with
            | some s => timeoutParseDate now s
            | none => now
          location := card.locationText.getD (pyCapitalize city ++ ", Australia")
          description := card.descText.map (fun d => pySlice d 500)
          image_url := resolveImage timeoutBaseUrl card.imgSrc
          source := none }

/-- The card loop of `_scrape_page`: at most 50 cards, keeping a candidate
only when extraction returned one with a truthy (non-empty) `ticket_url`. -/
def pageEvents (extract : Card → Option Candidate) (cards : List Card) :
    List Candidate :=
  (cards.take 50).filterMap fun card =>
    match extract card with
    | some d => if d.ticket_url == "" then none else some d
    | none => none

/-!
### The page loop, `run`, and the scheduler cycle
-/

/-- The listing-page loop of `_scrape_async`: starting at `page`, with
`fuel` pages remaining in the `range`, visit the page and stop as soon as a
page yields no events.  Returns the visited page numbers in visit order. -/
def crawlPages (fetch : Nat → List Candidate) : Nat → Nat → List Nat
  | _, 0 => []
  | page, fuel + 1 =>
      page :: (if (fetch page).isEmpty then [] else crawlPages fetch (page + 1) fuel)

/-- Number of pages the loop visits. -/
def crawlCount (fetch : Nat → List Candidate) : Nat → Nat → Nat
  | _, 0 => 0
  | page, fuel + 1 =>
      1 + (if (fetch page).isEmpty then 0 else crawlCount fetch (page + 1) fuel)

/-- Pages visited by `EventbriteScraper._scrape_async`
(`for page_num in range(1, 4)`). -/
def ebVisitedPages (fetch : Nat → List Candidate) : List Nat :=
  crawlPages fetch 1 3

/-- Pages visited by `TimeOutScraper._scrape_async`
(`for page_num in range(1, 3)`). -/
def timeoutVisitedPages (fetch : Nat → List Candidate) : List Nat :=
  crawlPages fetch 1 2

/-- The `event_data["source"] = self.source_name` stamp in
`BaseScraper.run`. -/
def stampSource (src : String) (c : Candidate) : Candidate :=
  { c with source := some src }

/-- The save loop of `BaseScraper.run`: stamp the source on each candidate
and upsert it (fresh ids are drawn from the current table length). -/
def saveAll (src : String) (now : Int) : List Event → List Candidate → List Event
  | db, [] => db
  | db, c :: cs =>
      saveAll src now (saveEvent now db.length db (stampSource src c)) cs

/-- `BaseScraper.run`: sweep expirations, then scrape; a scrape that raises
is caught by the top-level `except`, which returns 0 (the sweep's committed
effect remains).  On success every candidate is stamped and saved, and the
saved count is returned. -/
def runScraper (src : String) (now : Int) (db : List Event)
    (scrapeResult : Except Unit (List Candidate)) : List Event × Nat :=
  let db1 := markExpired now src db
  match scrapeResult with
  | Except.error _ => (db1, 0)
  | Except.ok events => (saveAll src now db1 events, events.length)

/-- `run_all_scrapers` of `scheduler.py`: each configured scraper is run on
the database produced so far; a scraper whose `run()` raises (`error`) is
logged and the loop continues with the next one.  The second component
records one outcome per scraper (`some count`, or `none` if it raised). -/
def runAllScrapers (db : List Event) :
    List (List Event → List Event × Except Unit Nat) →
      List Event × List (Option Nat)
  | [] => (db, [])
  | s :: rest =>
      let r := s db
      let res := runAllScrapers r.1 rest
      match r.2 with
      | Except.ok n => (res.1, some n :: res.2)
      | Except.error _ => (res.1, none :: res.2)

example :
    ebExtract "sydney" 0
        ⟨some "T", none, "", none, none, none, none⟩ = none := by decide

example :
    (ebExtract "sydney" 0
        ⟨none, some "/e/1", "Gig", none, none, none, none⟩).map
      Candidate.ticket_url = some "https://www.eventbrite.com.au/e/1" := by
  decide

example : ebVisitedPages (fun _ => []) = [1] := by decide

/-- A concrete candidate used by witness instantiations. -/
def sampleCandidate : Candidate :=
  ⟨"A", "u", 0, "L", none, none, none⟩

/-- A concrete page-fetch outcome: page 1 yields one candidate, every later
page is empty. -/
def oneThenEmptyFetch : Nat → List Candidate :=
  fun p => if p == 1 then [sampleCandidate] else []

/-- A concrete always-raising scraper entry for the scheduler cycle. -/
def alwaysRaisingRun : List Event → List Event × Except Unit Nat :=
  fun db => (db, Except.error ())

/-!
### Helper lemmas
-/

theorem updateFirst_length (p : α → Bool) (f : α → α) (l : List α) :
    (updateFirst p f l).length = l.length := by
  induction l with
  | nil => rfl
  | cons x xs ih =>
      by_cases hx : p x = true
      · simp [updateFirst, hx]
      · simp [updateFirst, hx, ih]

theorem updateFirst_get? (p : α → Bool) (f : α → α) (l : List α) :
    ∀ (i : Nat) (a : α), l[i]? = some a →
      (updateFirst p f l)[i]? = some a ∨
        (updateFirst p f l)[i]? = some (f a) := by
  induction l with
  | nil => intro i a h; simp at h
  | cons x xs ih =>
      intro i a h
      by_cases hx : p x = true
      · cases i with
        | zero => simp at h; subst h; simp [updateFirst, hx]
        | succ j => simp [updateFirst, hx]; simp at h; simp [h]
      · cases i with
        | zero => simp at h; subst h; simp [updateFirst, hx]
        | succ j =>
            simp at h
            simpa [updateFirst, hx] using ih j a h

theorem mem_updateFirst (p : α → Bool) (f : α → α) (l : List α) (e : α)
    (h : e ∈ updateFirst p f l) :
    e ∈ l ∨ ∃ e₀, e₀ ∈ l ∧ p e₀ = true ∧ e = f e₀ := by
  induction l with
  | nil => simp [updateFirst] at h
  | cons x xs ih =>
      by_cases hx : p x = true
      · simp [updateFirst, hx] at h
        rcases h with h | h
        · exact Or.inr ⟨x, by simp, hx, h⟩
        · exact Or.inl (by simp [h])
      · simp [updateFirst, hx] at h
        rcases h with h | h
        · exact Or.inl (by simp [h])
        · rcases ih h with h' | ⟨e₀, he₀, hpe₀, hfe₀⟩
          · exact Or.inl (by simp [h'])
          · exact Or.inr ⟨e₀, by simp [he₀], hpe₀, hfe₀⟩

theorem countP_updateFirst (p q : α → Bool) (f : α → α) (l : List α)
    (hf : ∀ a, q (f a) = q a) :
    (updateFirst p f l).countP q = l.countP q := by
  induction l with
  | nil => rfl
  | cons x xs ih =>
      by_cases hx : p x = true
      · simp [updateFirst, hx, List.countP_cons, hf]
      · simp [updateFirst, hx, List.countP_cons, ih]

theorem mem_updateFirst_of_countP_le_one (p : α → Bool) (f : α → α)
    (l : List α)
    (hc : l.countP p ≤ 1) (e : α) (he : e ∈ updateFirst p f l)
    (hpe : p e = true) :
    ∃ e₀, e₀ ∈ l ∧ p e₀ = true ∧ e = f e₀ := by
  induction l with
  | nil => simp [updateFirst] at he
  | cons x xs ih =>
      by_cases hx : p x = true
      · simp [updateFirst, hx] at he
        rcases he with he | he
        · exact ⟨x, by simp, hx, he⟩
        · exfalso
          have hz : xs.countP p = 0 := by
            have := List.countP_cons_of_pos (p := p) xs hx
            omega
          have := List.countP_eq_zero.mp hz e he
          exact this hpe
      · simp [updateFirst, hx] at he
        rcases he with he | he
        · exact absurd (he ▸ hpe) (by simpa using hx)
        · have hc' : xs.countP p ≤ 1 := by
            have := List.countP_cons_of_neg (p := p) xs hx
            omega
          rcases ih hc' he with ⟨e₀, he₀, hpe₀, hfe₀⟩
          exact ⟨e₀, by simp [he₀], hpe₀, hfe₀⟩

/-!
### Claims
-/

/-- C2: a sweep for a source at time `now` sets `expires_at = now` on
exactly the rows of that source whose `date_time` is earlier than
`now - 1 day` and whose `expires_at` is null; rows within the last 24
hours, rows already expired and rows of other sources are untouched, and a
second sweep at a later instant leaves a row expired by the first sweep
unchanged. -/
theorem C2_sweep_expired (db : List Event) (now now2 : Int) (src : String) :
    markExpired now src db = db.map (expireRecord now src)
  ∧ (∀ e : Event, e.source = src → e.date_time < now - 86400 →
      e.expires_at = none →
      expireRecord now src e = { e with expires_at := some now })
  ∧ (∀ e : Event, ¬ e.date_time < now - 86400 → expireRecord now src e = e)
  ∧ (∀ e : Event, e.expires_at ≠ none → expireRecord now src e = e)
  ∧ (∀ e : Event, e.source ≠ src → expireRecord now src e = e)
  ∧ (∀ e : Event, e.source = src → e.date_time < now - 86400 →
      e.expires_at = none →
      expireRecord now2 src (expireRecord now src e) =
        expireRecord now src e) := by
  refine ⟨rfl, ?_, ?_, ?_, ?_, ?_⟩
  · intro e h1 h2 h3
    subst h1
    simp [expireRecord, h2, h3]
  · intro e h
    simp [expireRecord, h]
  · intro e h
    rcases he : e.expires_at with _ | t
    · exact absurd he h
    · simp [expireRecord, he]
  · intro e h
    have : (e.source == src) = false := by simpa using h
    simp [expireRecord, this]
  · intro e h1 h2 h3
    subst h1
    simp [expireRecord, h2, h3]

/-- Witness for `C2_sweep_expired` at a concrete row and sweep times. -/
theorem C2_sweep_expired_witness :
    expireRecord 200000 "eventbrite"
        ⟨1, "A", 0, "L", none, "u", none, "eventbrite", 5, 5, none, 0⟩ =
      ⟨1, "A", 0, "L", none, "u", none, "eventbrite", 5, 5, some 200000, 0⟩
  ∧ expireRecord 300000 "eventbrite"
        (expireRecord 200000 "eventbrite"
          ⟨1, "A", 0, "L", none, "u", none, "eventbrite", 5, 5, none, 0⟩) =
      expireRecord 200000 "eventbrite"
        ⟨1, "A", 0, "L", none, "u", none, "eventbrite", 5, 5, none, 0⟩ :=
  ⟨(C2_sweep_expired [] 200000 300000 "eventbrite").2.1 _ rfl (by decide) rfl,
   (C2_sweep_expired [] 200000 300000 "eventbrite").2.2.2.2.2 _ rfl
     (by decide) rfl⟩

/-- C3: the claim says a failed robots.txt fetch leaves a permissive
policy under which `can_fetch` answers true for every URL.  The code
assigns a freshly constructed `RobotFileParser`, and CPython's `can_fetch`
answers `False` for every URL until a read has completed — so after a
failed fetch the scraper's `can_fetch` denies every URL, contradicting the
code's own "Create a permissive parser" comment and the spec.  This
theorem evaluates the code at the failing input. -/
theorem C3_robots_denies_after_failed_read (url : String) :
    scraperCanFetch (some (checkRobotsTxt (Except.error ()))) false
      "SydneyEventsBot/1.0 (+https://github.com/sydney-events-scraper)"
      url = false := rfl

/-- C4 counterexample: an eventbrite card whose date element's text parses
under none of the listed formats yields `date_time = now + 7 days`
(604800 s with `now = 0`), not `now` as the claim states. -/
theorem C4_date_default_counterexample :
    (ebExtract "sydney" 0
        ⟨none, some "/e/1", "Gig", some "Tomorrow at 7pm",
          none, none, none⟩).map Candidate.date_time = some 604800
  ∧ (604800 : Int) ≠ 0 :=
  ⟨by decide, by decide⟩

/-- C4 (amended): for every eventbrite card with an anchor, when the date
selector matches no element the candidate's `date_time` defaults to `now`;
when a date element is found but none of the listed formats parses its
text, `date_time` defaults to `now + 7 days`. -/
theorem C4_date_defaults (city : String) (now : Int) (card : Card)
    (href : String) (ha : card.anchorHref = some href) :
    (card.dateText = none →
      (ebExtract city now card).map Candidate.date_time = some now)
  ∧ (∀ s, card.dateText = some s →
      tryFormats ebDateFormats (pySlice s 20) = none →
      (ebExtract city now card).map Candidate.date_time =
        some (now + 604800)) := by
  constructor
  · intro hd
    simp [ebExtract, ha, hd]
  · intro s hd hp
    simp [ebExtract, ha, hd, ebParseDate, hp]

/-- Witness for `C4_date_defaults` at concrete cards. -/
theorem C4_date_defaults_witness :
    (ebExtract "sydney" 42
        ⟨none, some "/e/1", "Gig", none, none, none, none⟩).map
      Candidate.date_time = some 42
  ∧ (ebExtract "sydney" 42
        ⟨none, some "/e/1", "Gig", some "TBA", none, none, none⟩).map
      Candidate.date_time = some (42 + 604800) :=
  ⟨(C4_date_defaults "sydney" 42 _ "/e/1" rfl).1 rfl,
   (C4_date_defaults "sydney" 42 _ "/e/1" rfl).2 "TBA" rfl (by decide)⟩

/-- C6: a card in which no anchor with an `href` is found makes both
extractors return `None`, and every candidate in a page's scrape output
comes from a card that does have an anchor — so such a card is never
included in the output nor persisted. -/
theorem C6_no_anchor_discarded (city : String) (now : Int) (card : Card)
    (cards : List Card) (h : card.anchorHref = none) :
    ebExtract city now card = none
  ∧ timeoutExtract city now card = none
  ∧ (∀ d ∈ pageEvents (ebExtract city now) cards,
      ∃ c, c ∈ cards.take 50 ∧ c.anchorHref ≠ none ∧
        ebExtract city now c = some d)
  ∧ (∀ d ∈ pageEvents (timeoutExtract city now) cards,
      ∃ c, c ∈ cards.take 50 ∧ c.anchorHref ≠ none ∧
        timeoutExtract city now c = some d) := by
  refine ⟨by simp [ebExtract, h], by simp [timeoutExtract, h], ?_, ?_⟩
  · intro d hd
    simp only [pageEvents, List.mem_filterMap] at hd
    rcases hd with ⟨c, hc, hfc⟩
    rcases hx : ebExtract city now c with _ | d'
    · simp [hx] at hfc
    · refine ⟨c, hc, ?_, ?_⟩
      · intro hnone
        simp [ebExtract, hnone] at hx
      · rcases hurl : (d'.ticket_url == "") with _ | _
        · simp [hx, hurl] at hfc
          exact hfc ▸ hx
        · simp [hx, hurl] at hfc
  · intro d hd
    simp only [pageEvents, List.mem_filterMap] at hd
    rcases hd with ⟨c, hc, hfc⟩
    rcases hx : timeoutExtract city now c with _ | d'
    · simp [hx] at hfc
    · refine ⟨c, hc, ?_, ?_⟩
      · intro hnone
        simp [timeoutExtract, hnone] at hx
      · rcases hurl : (d'.ticket_url == "") with _ | _
        · simp [hx, hurl] at hfc
          exact hfc ▸ hx
        · simp [hx, hurl] at hfc

/-- Witness for `C6_no_anchor_discarded`: a concrete anchorless card is
dropped by both extractors. -/
theorem C6_no_anchor_discarded_witness :
    ebExtract "sydney" 0 ⟨some "T", none, "", some "d", some "l",
      some "x", some "/i.png"⟩ = none
  ∧ timeoutExtract "sydney" 0 ⟨some "T", none, "", some "d", some "l",
      some "x", some "/i.png"⟩ = none :=
  ⟨(C6_no_anchor_discarded "sydney" 0 _ [] rfl).1,
   (C6_no_anchor_discarded "sydney" 0 _ [] rfl).2.1⟩

theorem pyStartsWith_append_left (base href p : String)
    (h : pyStartsWith base p = true) :
    pyStartsWith (base ++ href) p = true := by
  simp only [pyStartsWith, List.isPrefixOf_iff_prefix, String.data_append] at *
  exact h.trans (List.prefix_append _ _)

theorem ne_empty_of_starts_http (s : String)
    (h : pyStartsWith s "http" = true) : s ≠ "" := by
  intro he
  subst he
  exact absurd h (by decide)

theorem resolveHref_starts_http (base href : String)
    (hb : pyStartsWith base "http" = true) :
    pyStartsWith (resolveHref base href) "http" = true := by
  unfold resolveHref
  by_cases h1 : pyStartsWith href "/" = true
  · simpa [h1] using pyStartsWith_append_left base href "http" hb
  · by_cases h2 : pyStartsWith href "http" = true
    · simp [h1, h2]
    · simpa [h1, h2] using
        pyStartsWith_append_left (base ++ "/") href "http"
          (pyStartsWith_append_left base "/" "http" hb)

/-- C10: the three `href` resolution branches of both extractors, and the
resulting invariant — every extracted candidate's `ticket_url` is a
non-empty string beginning with "http". -/
theorem C10_ticket_url_wellformed (city : String) (now : Int) (card : Card)
    (c c' : Candidate) (base href : String) :
    (pyStartsWith href "/" = true → resolveHref base href = base ++ href)
  ∧ (pyStartsWith href "/" = false → pyStartsWith href "http" = true →
      resolveHref base href = href)
  ∧ (pyStartsWith href "/" = false → pyStartsWith href "http" = false →
      resolveHref base href = base ++ "/" ++ href)
  ∧ (ebExtract city now card = some c →
      pyStartsWith c.ticket_url "http" = true ∧ c.ticket_url ≠ "")
  ∧ (timeoutExtract city now card = some c' →
      pyStartsWith c'.ticket_url "http" = true ∧ c'.ticket_url ≠ "") := by
  refine ⟨?_, ?_, ?_, ?_, ?_⟩
  · intro h1; simp [resolveHref, h1]
  · intro h1 h2; simp [resolveHref, h1, h2]
  · intro h1 h2; simp [resolveHref, h1, h2]
  · intro hx
    rcases ha : card.anchorHref with _ | href₀
    · simp [ebExtract, ha] at hx
    · have hurl : c.ticket_url = resolveHref ebBaseUrl href₀ := by
        simp [ebExtract, ha] at hx
        simp [← hx]
      have hs : pyStartsWith c.ticket_url "http" = true := by
        rw [hurl]
        exact resolveHref_starts_http ebBaseUrl href₀ (by decide)
      exact ⟨hs, ne_empty_of_starts_http _ hs⟩
  · intro hx
    rcases ha : card.anchorHref with _ | href₀
    · simp [timeoutExtract, ha] at hx
    · have hurl : c'.ticket_url = resolveHref timeoutBaseUrl href₀ := by
        simp [timeoutExtract, ha] at hx
        simp [← hx]
      have hs : pyStartsWith c'.ticket_url "http" = true := by
        rw [hurl]
        exact resolveHref_starts_http timeoutBaseUrl href₀ (by decide)
      exact ⟨hs, ne_empty_of_starts_http _ hs⟩

/-- Witness for `C10_ticket_url_wellformed`: a concrete relative href and
the candidate it produces. -/
theorem C10_ticket_url_wellformed_witness :
    resolveHref ebBaseUrl "/e/1" = ebBaseUrl ++ "/e/1"
  ∧ pyStartsWith
      (Candidate.mk "Gig" "https://www.eventbrite.com.au/e/1" 0
        "Sydney, Australia" none none none).ticket_url "http" = true
  ∧ (Candidate.mk "Gig" "https://www.eventbrite.com.au/e/1" 0
        "Sydney, Australia" none none none).ticket_url ≠ "" := by
  have h := C10_ticket_url_wellformed "sydney" 0
    ⟨none, some "/e/1", "Gig", none, none, none, none⟩
    (Candidate.mk "Gig" "https://www.eventbrite.com.au/e/1" 0
      "Sydney, Australia" none none none)
    (Candidate.mk "Gig" "https://www.eventbrite.com.au/e/1" 0
      "Sydney, Australia" none none none)
    ebBaseUrl "/e/1"
  exact ⟨h.1 (by decide), (h.2.2.2.1 (by decide)).1, (h.2.2.2.1 (by decide)).2⟩

theorem crawlCount_pos (fetch : Nat → List Candidate) (page m : Nat) :
    1 ≤ crawlCount fetch page (m + 1) := by
  by_cases hb : (fetch page).isEmpty = true
  · simp [crawlCount, hb]
  · simp [crawlCount, hb]

theorem crawl_spec (fetch : Nat → List Candidate) :
    ∀ (fuel page : Nat),
      crawlPages fetch page fuel = List.range' page (crawlCount fetch page fuel)
    ∧ crawlCount fetch page fuel ≤ fuel
    ∧ (∀ i, i + 1 < crawlCount fetch page fuel → fetch (page + i) ≠ [])
    ∧ (crawlCount fetch page fuel < fuel →
        fetch (page + crawlCount fetch page fuel - 1) = []) := by
  intro fuel
  induction fuel with
  | zero =>
      intro page
      refine ⟨rfl, le_refl _, ?_, ?_⟩
      · intro i h
        rw [show crawlCount fetch page 0 = 0 from rfl] at h
        omega
      · intro h
        rw [show crawlCount fetch page 0 = 0 from rfl] at h
        omega
  | succ n ih =>
      intro page
      by_cases hb : (fetch page).isEmpty = true
      · have hc : crawlCount fetch page (n + 1) = 1 := by
          simp [crawlCount, hb]
        refine ⟨?_, ?_, ?_, ?_⟩
        · simp [crawlPages, hb, hc, List.range'_succ]
        · omega
        · intro i h
          rw [hc] at h
          omega
        · intro _
          rw [hc]
          simpa using List.isEmpty_iff.mp hb
      · have hne : fetch page ≠ [] := by
          intro h
          exact hb (by simp [h])
        have hc : crawlCount fetch page (n + 1) =
            1 + crawlCount fetch (page + 1) n := by
          simp [crawlCount, hb]
        have h₁ := (ih (page + 1)).1
        have h₂ := (ih (page + 1)).2.1
        have h₃ := (ih (page + 1)).2.2.1
        have h₄ := (ih (page + 1)).2.2.2
        refine ⟨?_, by omega, ?_, ?_⟩
        · rw [hc, Nat.add_comm 1, List.range'_succ]
          simp [crawlPages, hb, h₁]
        · intro i h
          rw [hc] at h
          cases i with
          | zero => simpa using hne
          | succ j =>
              have := h₃ j (by omega)
              rwa [show page + (j + 1) = page + 1 + j by omega]
        · intro h
          rw [hc] at h ⊢
          have hlt : crawlCount fetch (page + 1) n < n := by omega
          have := h₄ hlt
          have hpos : 1 ≤ crawlCount fetch (page + 1) n := by
            cases n with
            | zero => omega
            | succ m => exact crawlCount_pos fetch (page + 1) m
          rwa [show page + (1 + crawlCount fetch (page + 1) n) - 1 =
            page + 1 + crawlCount fetch (page + 1) n - 1 by omega]

/-- C8: each source's page loop visits consecutive page numbers from 1 in
increasing order, at most 3 for eventbrite and 2 for timeout, every visited
page except the last yielded candidates, and a run that stops before the
bound does so because its last visited page yielded zero candidates. -/
theorem C8_bounded_page_loop (fetch gfetch : Nat → List Candidate) :
    (ebVisitedPages fetch = List.range' 1 (crawlCount fetch 1 3)
      ∧ crawlCount fetch 1 3 ≤ 3
      ∧ (∀ i, i + 1 < crawlCount fetch 1 3 → fetch (1 + i) ≠ [])
      ∧ (crawlCount fetch 1 3 < 3 →
          fetch (1 + crawlCount fetch 1 3 - 1) = []))
  ∧ (timeoutVisitedPages gfetch = List.range' 1 (crawlCount gfetch 1 2)
      ∧ crawlCount gfetch 1 2 ≤ 2
      ∧ (∀ i, i + 1 < crawlCount gfetch 1 2 → gfetch (1 + i) ≠ [])
      ∧ (crawlCount gfetch 1 2 < 2 →
          gfetch (1 + crawlCount gfetch 1 2 - 1) = [])) :=
  ⟨crawl_spec fetch 3 1, crawl_spec gfetch 2 1⟩

/-- Witness for `C8_bounded_page_loop`: with one candidate on page 1 and
none on page 2, eventbrite visits pages `[1, 2]` and stops because page 2
was empty. -/
theorem C8_bounded_page_loop_witness :
    ebVisitedPages oneThenEmptyFetch = [1, 2]
  ∧ oneThenEmptyFetch (1 + crawlCount oneThenEmptyFetch 1 3 - 1) = []
  ∧ timeoutVisitedPages oneThenEmptyFetch = [1, 2] := by
  have h := C8_bounded_page_loop oneThenEmptyFetch oneThenEmptyFetch
  refine ⟨?_, h.1.2.2.2 (by decide), ?_⟩
  · rw [h.1.1]; decide
  · rw [h.2.1]; decide

theorem runAllScrapers_outcomes_length
    (l : List (List Event → List Event × Except Unit Nat)) :
    ∀ db : List Event, (runAllScrapers db l).2.length = l.length := by
  induction l with
  | nil => intro db; rfl
  | cons s rest ih =>
      intro db
      rcases hr : (s db).2 with _ | n
      · simp [runAllScrapers, hr, ih]
      · simp [runAllScrapers, hr, ih]

/-- C7: a whole-run exception makes `run()` return 0 instead of
propagating (the pre-scrape expiration sweep remains committed), and in a
scheduling cycle a scraper whose `run()` raises leaves the loop to continue
with the remaining scrapers on the store produced so far — every configured
scraper gets exactly one outcome. -/
theorem C7_failure_isolation (src : String) (now : Int) (db : List Event)
    (e : Unit) (bad : List Event → List Event × Except Unit Nat)
    (rest : List (List Event → List Event × Except Unit Nat))
    (hbad : (bad db).2 = Except.error ()) :
    runScraper src now db (Except.error e) = (markExpired now src db, 0)
  ∧ runAllScrapers db (bad :: rest) =
      ((runAllScrapers (bad db).1 rest).1,
        none :: (runAllScrapers (bad db).1 rest).2)
  ∧ (∀ (l : List (List Event → List Event × Except Unit Nat))
        (db' : List Event), (runAllScrapers db' l).2.length = l.length) := by
  refine ⟨rfl, ?_, fun l db' => runAllScrapers_outcomes_length l db'⟩
  simp [runAllScrapers, hbad]

/-- Witness for `C7_failure_isolation`: a raising scraper in a singleton
cycle yields outcome `none` and count 0 for the raising run. -/
theorem C7_failure_isolation_witness :
    runScraper "eventbrite" 0 [] (Except.error ()) = ([], 0)
  ∧ runAllScrapers [] [alwaysRaisingRun] = ([], [none]) := by
  have h := C7_failure_isolation "eventbrite" 0 [] () alwaysRaisingRun [] rfl
  exact ⟨h.1, h.2.1⟩

/-- C5: `expires_at` is monotonic once set — `save_event` never changes any
existing row's `expires_at` (the update branch assigns no such attribute)
and inserts rows with `expires_at` null; the sweep is the only writer, it
never clears a set value, and it only moves `expires_at` from null to the
sweep time. -/
theorem C5_expires_at_monotonic (db : List Event) (now : Int) (id : Nat)
    (c : Candidate) (src : String) :
    (∀ i : Nat, i < db.length →
      (saveEvent now id db c)[i]?.map Event.expires_at =
        db[i]?.map Event.expires_at)
  ∧ (newEvent now id c).expires_at = none
  ∧ (∀ e : Event, (applyCandidate now c e).expires_at = e.expires_at)
  ∧ (∀ (i : Nat) (e : Event), db[i]? = some e →
      (markExpired now src db)[i]? = some (expireRecord now src e))
  ∧ (∀ (e : Event) (t : Int), e.expires_at = some t →
      (expireRecord now src e).expires_at = some t)
  ∧ (∀ e : Event, (expireRecord now src e).expires_at = e.expires_at
      ∨ (e.expires_at = none
          ∧ (expireRecord now src e).expires_at = some now)) := by
  refine ⟨?_, rfl, fun e => rfl, ?_, ?_, ?_⟩
  · intro i hi
    have hg : db[i]? = some db[i] := List.getElem?_eq_getElem hi
    rcases hdup : checkDuplicate db c.ticket_url with _ | e₀
    · simp only [saveEvent, hdup]
      rw [List.getElem?_append_left hi]
    · simp only [saveEvent, hdup]
      rcases updateFirst_get? (fun e => e.ticket_url == c.ticket_url)
        (applyCandidate now c) db i db[i] hg with h' | h'
      · rw [h', hg]
      · rw [h', hg]
        rfl
  · intro i e h
    unfold markExpired
    rw [List.getElem?_map, h]
    rfl
  · intro e t he
    simp [expireRecord, he]
  · intro e
    by_cases hcond : (e.source == src && decide (e.date_time < now - 86400)
        && e.expires_at.isNone) = true
    · have h3 : e.expires_at.isNone = true := by
        have h4 := hcond
        simp only [Bool.and_eq_true] at h4
        exact h4.2
      exact Or.inr ⟨Option.isNone_iff_eq_none.mp h3,
        by simp [expireRecord, hcond]⟩
    · exact Or.inl (by simp [expireRecord, hcond])

/-- Witness for `C5_expires_at_monotonic`: a concrete already-expired row
is untouched positionally by an upsert and by a later sweep. -/
theorem C5_expires_at_monotonic_witness :
    (saveEvent 9 1 [⟨1, "A", 0, "L", none, "u", none, "eventbrite", 5, 5,
        some 7, 0⟩] sampleCandidate)[0]?.map Event.expires_at =
      [(⟨1, "A", 0, "L", none, "u", none, "eventbrite", 5, 5, some 7, 0⟩ :
        Event)][0]?.map Event.expires_at
  ∧ (expireRecord 9 "eventbrite"
      ⟨1, "A", 0, "L", none, "u", none, "eventbrite", 5, 5, some 7,
        0⟩).expires_at = some 7 := by
  have h := C5_expires_at_monotonic
    [⟨1, "A", 0, "L", none, "u", none, "eventbrite", 5, 5, some 7, 0⟩]
    9 1 sampleCandidate "eventbrite"
  exact ⟨h.1 0 (by decide), h.2.2.2.2.1 _ 7 rfl⟩

theorem countP_eq_zero_of_checkDuplicate_none (db : List Event) (u : String)
    (h : checkDuplicate db u = none) :
    db.countP (fun e => e.ticket_url == u) = 0 := by
  rw [List.countP_eq_zero]
  intro e he
  simpa using List.find?_eq_none.mp h e he

theorem countP_pos_of_checkDuplicate_some (db : List Event) (u : String)
    (e₀ : Event) (h : checkDuplicate db u = some e₀) :
    1 ≤ db.countP (fun e => e.ticket_url == u) := by
  have hpos := List.countP_pos_iff.mpr
    ⟨e₀, List.mem_of_find?_eq_some h, List.find?_some h⟩
  omega

theorem applyCandidate_ticket_url (now : Int) (c : Candidate) (e : Event) :
    (applyCandidate now c e).ticket_url = e.ticket_url := rfl

theorem expireRecord_ticket_url (now : Int) (src : String) (e : Event) :
    (expireRecord now src e).ticket_url = e.ticket_url := by
  by_cases h : (e.source == src && decide (e.date_time < now - 86400)
      && e.expires_at.isNone) = true
  · simp [expireRecord, h]
  · simp [expireRecord, h]

theorem saveEvent_countP (now : Int) (id : Nat) (db : List Event)
    (c : Candidate) (v : String) :
    (saveEvent now id db c).countP (fun e => e.ticket_url == v) =
      db.countP (fun e => e.ticket_url == v) +
        (if checkDuplicate db c.ticket_url = none then
          (if c.ticket_url = v then 1 else 0) else 0) := by
  rcases hdup : checkDuplicate db c.ticket_url with _ | e₀
  · simp only [saveEvent, hdup, if_pos rfl]
    rw [List.countP_append]
    by_cases hv : c.ticket_url = v
    · simp [newEvent, List.countP_cons, hv]
    · simp [newEvent, List.countP_cons, hv]
  · simp only [saveEvent, hdup]
    rw [countP_updateFirst (fun e => e.ticket_url == c.ticket_url)
      (fun e => e.ticket_url == v) (applyCandidate now c) db (fun a => rfl)]
    simp

theorem saveEvent_preserves_unique (now : Int) (id : Nat) (db : List Event)
    (c : Candidate)
    (hinv : ∀ v, db.countP (fun e => e.ticket_url == v) ≤ 1) :
    ∀ v, (saveEvent now id db c).countP (fun e => e.ticket_url == v) ≤ 1 := by
  intro v
  rw [saveEvent_countP]
  rcases hdup : checkDuplicate db c.ticket_url with _ | e₀
  · by_cases hv : c.ticket_url = v
    · have h0 := countP_eq_zero_of_checkDuplicate_none db c.ticket_url hdup
      rw [hv] at h0
      simp [hv, h0]
    · simpa [hv] using hinv v
  · simpa using hinv v

theorem markExpired_countP (now : Int) (src : String) (db : List Event)
    (v : String) :
    (markExpired now src db).countP (fun e => e.ticket_url == v) =
      db.countP (fun e => e.ticket_url == v) := by
  unfold markExpired
  rw [List.countP_map]
  exact List.countP_congr fun e _ => by
    simp [Function.comp, expireRecord_ticket_url]

theorem saveEvent_stamped_source (now : Int) (id : Nat) (db : List Event)
    (c : Candidate) (src : String)
    (hinv : ∀ v, db.countP (fun e => e.ticket_url == v) ≤ 1) :
    ∀ e ∈ saveEvent now id db (stampSource src c),
      e.ticket_url = c.ticket_url → e.source = src := by
  intro e he heu
  rcases hdup : checkDuplicate db c.ticket_url with _ | e₀
  · rw [saveEvent] at he
    simp only [stampSource] at he
    rw [hdup] at he
    rcases List.mem_append.mp he with h | h
    · exfalso
      have h0 := countP_eq_zero_of_checkDuplicate_none db c.ticket_url hdup
      have := List.countP_eq_zero.mp h0 e h
      simp [heu] at this
    · have : e = newEvent now id (stampSource src c) := by simpa using h
      rw [this]
      rfl
  · rw [saveEvent] at he
    simp only [stampSource] at he
    rw [hdup] at he
    rcases mem_updateFirst_of_countP_le_one _ _ _ (hinv c.ticket_url) e he
        (by simp [heu]) with ⟨e₁, _, _, hfe⟩
    rw [hfe]
    rfl

theorem saveEvent_preserves_stamp (now : Int) (id : Nat) (db : List Event)
    (c' : Candidate) (u src : String) (hne : c'.ticket_url ≠ u)
    (hall : ∀ e ∈ db, e.ticket_url = u → e.source = src) :
    ∀ e ∈ saveEvent now id db c', e.ticket_url = u → e.source = src := by
  intro e he heu
  rcases hdup : checkDuplicate db c'.ticket_url with _ | e₀
  · rw [saveEvent, hdup] at he
    rcases List.mem_append.mp he with h | h
    · exact hall e h heu
    · exfalso
      have : e = newEvent now id c' := by simpa using h
      rw [this] at heu
      exact hne heu
  · rw [saveEvent, hdup] at he
    rcases mem_updateFirst _ _ _ e he with h | ⟨e₁, he₁, hpe₁, hfe⟩
    · exact hall e h heu
    · exfalso
      rw [hfe, applyCandidate_ticket_url] at heu
      exact hne ((by simpa using hpe₁ : e₁.ticket_url = c'.ticket_url) ▸ heu)

theorem saveAll_preserves_stamp (src : String) (now : Int) :
    ∀ (cs : List Candidate) (db : List Event) (u : String),
      u ∉ cs.map Candidate.ticket_url →
      (∀ e ∈ db, e.ticket_url = u → e.source = src) →
      ∀ e ∈ saveAll src now db cs, e.ticket_url = u → e.source = src := by
  intro cs
  induction cs with
  | nil => intro db u _ hall e he heu; exact hall e he heu
  | cons c rest ih =>
      intro db u hu hall e he heu
      have hne : (stampSource src c).ticket_url ≠ u := by
        intro h
        exact hu (by simp [stampSource] at h; simp [← h])
      refine ih (saveEvent now db.length db (stampSource src c)) u
        (fun h => hu (by simp at h ⊢; exact Or.inr h)) ?_ e he heu
      exact saveEvent_preserves_stamp now db.length db (stampSource src c)
        u src hne hall

theorem saveAll_source_stamped (src : String) (now : Int) :
    ∀ (events : List Candidate) (db : List Event),
      (∀ v, db.countP (fun e => e.ticket_url == v) ≤ 1) →
      ∀ u, u ∈ events.map Candidate.ticket_url →
        ∀ e ∈ saveAll src now db events,
          e.ticket_url = u → e.source = src := by
  intro events
  induction events with
  | nil => intro db _ u hu; simp at hu
  | cons c cs ih =>
      intro db hinv u hu e he heu
      by_cases hcs : u ∈ cs.map Candidate.ticket_url
      · exact ih (saveEvent now db.length db (stampSource src c))
          (saveEvent_preserves_unique now db.length db (stampSource src c)
            hinv) u hcs e he heu
      · have hu' : u = c.ticket_url := by
          simp at hu
          rcases hu with h | h
          · exact h
          · exact absurd (by simpa using (List.mem_map.mpr
              ⟨_, h.choose_spec.1, h.choose_spec.2⟩)) hcs
        have hstep : ∀ e' ∈ saveEvent now db.length db (stampSource src c),
            e'.ticket_url = u → e'.source = src := by
          intro e' he' heu'
          exact saveEvent_stamped_source now db.length db c src hinv e' he'
            (hu' ▸ heu')
        exact saveAll_preserves_stamp src now cs
          (saveEvent now db.length db (stampSource src c)) u hcs hstep
          e he heu

/-- C9: `run` stamps `source` on every candidate after extraction and
before `save_event` (overriding anything the extractor produced), so every
record persisted during a run carries the orchestrating scraper's
`source_name`. -/
theorem C9_source_stamped (src : String) (now : Int) (db : List Event)
    (events : List Candidate)
    (hinv : ∀ v, db.countP (fun e => e.ticket_url == v) ≤ 1) :
    (∀ c, (stampSource src c).source = some src)
  ∧ (∀ u, u ∈ events.map Candidate.ticket_url →
      ∀ e ∈ (runScraper src now db (Except.ok events)).1,
        e.ticket_url = u → e.source = src) := by
  refine ⟨fun c => rfl, ?_⟩
  intro u hu e he heu
  have hinv' : ∀ v,
      (markExpired now src db).countP (fun e => e.ticket_url == v) ≤ 1 := by
    intro v
    rw [markExpired_countP]
    exact hinv v
  exact saveAll_source_stamped src now events (markExpired now src db)
    hinv' u hu e (by simpa [runScraper] using he) heu

/-- Witness for `C9_source_stamped`: one candidate carrying a bogus
extractor-produced source is persisted with the orchestrator's source. -/
theorem C9_source_stamped_witness :
    (⟨0, "A", 0, "L", none, "u", none, "eventbrite", 0, 0, none, 0⟩ :
      Event).source = "eventbrite" := by
  have h := C9_source_stamped "eventbrite" 0 []
    [⟨"A", "u", 0, "L", none, none, some "bogus"⟩] (fun v => by simp)
  exact h.2 "u" (by decide)
    ⟨0, "A", 0, "L", none, "u", none, "eventbrite", 0, 0, none, 0⟩
    (by decide) rfl

/-- C1: `save_event` overwrites every dict-supplied field except
`ticket_url` and bumps `updated_at` when a row with the candidate's
`ticket_url` exists, inserts a fresh row with `created_at` set otherwise;
ingesting two candidates with the same `ticket_url` therefore leaves
exactly one row for that url, carrying the second candidate's field values
with `ticket_url` unchanged and `updated_at` advanced from the first
ingestion's `t1` to the second's `t2`. -/
theorem C1_upsert_by_ticket_url (db : List Event) (id1 id2 : Nat)
    (t1 t2 : Int) (c1 c2 : Candidate) (e₀ : Event)
    (hurl : c1.ticket_url = c2.ticket_url)
    (huniq : db.countP (fun e => e.ticket_url == c2.ticket_url) ≤ 1) :
    ((applyCandidate t2 c2 e₀).ticket_url = e₀.ticket_url
      ∧ (applyCandidate t2 c2 e₀).title = c2.title
      ∧ (applyCandidate t2 c2 e₀).date_time = c2.date_time
      ∧ (applyCandidate t2 c2 e₀).location = c2.location
      ∧ (applyCandidate t2 c2 e₀).description = c2.description
      ∧ (applyCandidate t2 c2 e₀).image_url = c2.image_url
      ∧ (∀ s, c2.source = some s → (applyCandidate t2 c2 e₀).source = s)
      ∧ (applyCandidate t2 c2 e₀).updated_at = t2
      ∧ (applyCandidate t2 c2 e₀).created_at = e₀.created_at)
  ∧ (checkDuplicate db c1.ticket_url = some e₀ →
      saveEvent t1 id1 db c1 =
        updateFirst (fun e => e.ticket_url == c1.ticket_url)
          (applyCandidate t1 c1) db)
  ∧ (checkDuplicate db c1.ticket_url = none →
      saveEvent t1 id1 db c1 = db ++ [newEvent t1 id1 c1]
        ∧ (newEvent t1 id1 c1).created_at = t1)
  ∧ (saveEvent t2 id2 (saveEvent t1 id1 db c1) c2).countP
      (fun e => e.ticket_url == c2.ticket_url) = 1
  ∧ (∀ e ∈ saveEvent t1 id1 db c1,
      e.ticket_url = c2.ticket_url → e.updated_at = t1)
  ∧ (∀ e ∈ saveEvent t2 id2 (saveEvent t1 id1 db c1) c2,
      e.ticket_url = c2.ticket_url →
        e.title = c2.title ∧ e.date_time = c2.date_time
          ∧ e.location = c2.location ∧ e.description = c2.description
          ∧ e.image_url = c2.image_url
          ∧ (∀ s, c2.source = some s → e.source = s)
          ∧ e.updated_at = t2) := by
  have h1 : (saveEvent t1 id1 db c1).countP
      (fun e => e.ticket_url == c2.ticket_url) = 1 := by
    rw [saveEvent_countP t1 id1 db c1 c2.ticket_url]
    rcases hdup : checkDuplicate db c1.ticket_url with _ | ex
    · have h0 := countP_eq_zero_of_checkDuplicate_none db c1.ticket_url hdup
      rw [hurl] at h0
      simp [hurl, h0]
    · have hge := countP_pos_of_checkDuplicate_some db c1.ticket_url ex hdup
      rw [hurl] at hge
      simp only [if_neg (by simp : ¬(some ex = none))]
      omega
  have hx2 : ∃ ex2, checkDuplicate (saveEvent t1 id1 db c1)
      c2.ticket_url = some ex2 := by
    rcases hx : checkDuplicate (saveEvent t1 id1 db c1) c2.ticket_url
        with _ | ex2
    · have h0 := countP_eq_zero_of_checkDuplicate_none _ _ hx
      omega
    · exact ⟨ex2, rfl⟩
  rcases hx2 with ⟨ex2, hx2⟩
  have hdb2 : saveEvent t2 id2 (saveEvent t1 id1 db c1) c2 =
      updateFirst (fun e => e.ticket_url == c2.ticket_url)
        (applyCandidate t2 c2) (saveEvent t1 id1 db c1) := by
    generalize hg : saveEvent t1 id1 db c1 = db1 at hx2 ⊢
    simp only [saveEvent, hx2]
  refine ⟨⟨rfl, rfl, rfl, rfl, rfl, rfl, ?_, rfl, rfl⟩, ?_, ?_, ?_, ?_, ?_⟩
  · intro s hs
    simp [applyCandidate, hs]
  · intro h
    simp only [saveEvent, h]
  · intro h
    exact ⟨by simp only [saveEvent, h], rfl⟩
  · rw [saveEvent_countP, hx2, h1]
    simp
  · intro e he heu
    rcases hdup : checkDuplicate db c1.ticket_url with _ | ex
    · rw [saveEvent, hdup] at he
      rcases List.mem_append.mp he with h | h
      · exfalso
        have h0 := countP_eq_zero_of_checkDuplicate_none db c1.ticket_url hdup
        rw [hurl] at h0
        have := List.countP_eq_zero.mp h0 e h
        simp [heu] at this
      · have : e = newEvent t1 id1 c1 := by simpa using h
        rw [this]
        rfl
    · rw [saveEvent, hdup] at he
      rcases mem_updateFirst_of_countP_le_one _ _ _
          (by rw [hurl]; exact huniq) e he (by simp [heu, ← hurl])
          with ⟨e₁, _, _, hfe⟩
      rw [hfe]
      rfl
  · intro e he heu
    rw [hdb2] at he
    rcases mem_updateFirst_of_countP_le_one _ _ _ (le_of_eq h1) e he
        (by simp [heu]) with ⟨e₁, _, _, hfe⟩
    subst hfe
    exact ⟨rfl, rfl, rfl, rfl, rfl, fun s hs => by simp [applyCandidate, hs],
      rfl⟩

/-- Witness for `C1_upsert_by_ticket_url`: ingesting two candidates with
the same url into an empty store leaves one row with the second
candidate's title and `updated_at = 20`. -/
theorem C1_upsert_by_ticket_url_witness :
    (saveEvent 20 1 (saveEvent 10 0 []
        ⟨"A", "u", 0, "L", none, none, some "eventbrite"⟩)
        ⟨"B", "u", 3, "M", some "d", none, some "eventbrite"⟩).countP
      (fun e => e.ticket_url == "u") = 1
  ∧ (∀ e ∈ saveEvent 20 1 (saveEvent 10 0 []
        ⟨"A", "u", 0, "L", none, none, some "eventbrite"⟩)
        ⟨"B", "u", 3, "M", some "d", none, some "eventbrite"⟩,
      e.ticket_url = "u" →
        e.title = "B" ∧ e.date_time = 3 ∧ e.location = "M"
          ∧ e.description = some "d" ∧ e.image_url = none
          ∧ (∀ s, some "eventbrite" = some s → e.source = s)
          ∧ e.updated_at = 20) := by
  have h := C1_upsert_by_ticket_url [] 0 1 10 20
    ⟨"A", "u", 0, "L", none, none, some "eventbrite"⟩
    ⟨"B", "u", 3, "M", some "d", none, some "eventbrite"⟩
    ⟨0, "A", 0, "L", none, "u", none, "eventbrite", 0, 0, none, 0⟩
    rfl (by simp)
  exact ⟨h.2.2.2.1, h.2.2.2.2.2⟩
